import Mathlib

/-!
Verification of the xDS client (`xds_client.go`): a shallow embedding of the
stream-attempt state machine (`adsCallAttempt`), the supervising retry loop
(`makeADSCall`), and the dial/close channel-lifecycle race, together with
theorems settling the specification's claims about them.
-/

set_option maxHeartbeats 1000000

namespace Xds

/-- The CDS (primary, `Cluster`) resource type URL from the source constants. -/
def cdsType : String := "type.googleapis.com/envoy.api.v2.Cluster"

/-- The EDS (dependent, `ClusterLoadAssignment`) resource type URL from the source constants. -/
def edsType : String := "type.googleapis.com/envoy.api.v2.ClusterLoadAssignment"

/-- Outcome of `types.UnmarshalAny` on the first resource payload: the dynamic
type switched on in `adsCallAttempt` (`*xdspb.Cluster`,
`*xdspb.ClusterLoadAssignment`, or any other message type). -/
inductive AdsMsg where
  | cluster
  | clusterLoadAssignment
  | other
deriving DecidableEq

/-- One ADS discovery response as observed by `adsCallAttempt`: its type URL,
the length of `resp.GetResources()`, the decode outcome of `resources[0]`
(`none` models an `UnmarshalAny` error), and whether the consumer callback
`c.newADS` accepts the decoded message. -/
structure Response where
  typeUrl : String
  numResources : Nat
  decode : Option AdsMsg
  newADSOk : Bool
deriving DecidableEq

/-- One result of `st.Recv()` inside the receive loop: a transport error or a
successfully received response. -/
inductive RecvEvent where
  | err : RecvEvent
  | ok : Response → RecvEvent
deriving DecidableEq

/-- Why an attempt returned: each constructor corresponds to one `return` in
`adsCallAttempt`. -/
inductive EndReason where
  | streamCreateError
  | sendCDSError
  | sendEDSError
  | recvError
  | emptyResponse
  | unexpectedCDS
  | decodeError
  | phaseViolation
  | consumerError
deriving DecidableEq

/-- What one call of `adsCallAttempt` produced: the `firstRespReceived` boolean
it returns to `makeADSCall`, the messages it passed to the consumer callback
`c.newADS` in order, and why it returned (`none` when the supplied event list
ran out while the receive loop was still waiting). -/
structure AttemptResult where
  firstRespReceived : Bool
  dispatched : List AdsMsg
  ended : Option EndReason
deriving DecidableEq

/-- The mutable local state of the receive loop in `adsCallAttempt`:
`expectCDS` (the protocol phase: `true` means a CDS resource is still awaited),
the `firstRespReceived` named return value, and the messages dispatched so far. -/
structure LoopState where
  expectCDS : Bool
  firstRespReceived : Bool
  dispatched : List AdsMsg
deriving DecidableEq

/-- The receive loop of `adsCallAttempt` (source lines 213-249), driven by a
finite list of `st.Recv()` outcomes.  On a successful receive the
`firstRespReceived` flag is set before any validation; then the empty-resource
check, the CDS-in-EDS-only-mode check, decoding, the phase check for
`ClusterLoadAssignment`, and the consumer callback run in source order. -/
def recvLoop (enableCDS : Bool) : LoopState → List RecvEvent → AttemptResult
  | s, [] => ⟨s.firstRespReceived, s.dispatched, none⟩
  | s, RecvEvent.err :: _ => ⟨s.firstRespReceived, s.dispatched, some EndReason.recvError⟩
  | s, RecvEvent.ok resp :: rest =>
    if resp.numResources < 1 then
      ⟨true, s.dispatched, some EndReason.emptyResponse⟩
    else if resp.typeUrl == cdsType && !enableCDS then
      ⟨true, s.dispatched, some EndReason.unexpectedCDS⟩
    else
      match resp.decode with
      | none => ⟨true, s.dispatched, some EndReason.decodeError⟩
      | some AdsMsg.cluster =>
        if resp.newADSOk then
          recvLoop enableCDS ⟨false, true, s.dispatched ++ [AdsMsg.cluster]⟩ rest
        else
          ⟨true, s.dispatched ++ [AdsMsg.cluster], some EndReason.consumerError⟩
      | some AdsMsg.clusterLoadAssignment =>
        if s.expectCDS then
          ⟨true, s.dispatched, some EndReason.phaseViolation⟩
        else if resp.newADSOk then
          recvLoop enableCDS ⟨s.expectCDS, true, s.dispatched ++ [AdsMsg.clusterLoadAssignment]⟩ rest
        else
          ⟨true, s.dispatched ++ [AdsMsg.clusterLoadAssignment], some EndReason.consumerError⟩
      | some AdsMsg.other =>
        if resp.newADSOk then
          recvLoop enableCDS ⟨s.expectCDS, true, s.dispatched ++ [AdsMsg.other]⟩ rest
        else
          ⟨true, s.dispatched ++ [AdsMsg.other], some EndReason.consumerError⟩

/-- One call of `adsCallAttempt` (source lines 193-250): stream creation, the
optional CDS send, the EDS send, then the receive loop started with
`expectCDS := c.enableCDS`.  The Booleans model whether
`StreamAggregatedResources` and the two `st.Send` calls succeed. -/
def adsCallAttempt (enableCDS streamOk sendCDSOk sendEDSOk : Bool)
    (events : List RecvEvent) : AttemptResult :=
  if !streamOk then ⟨false, [], some EndReason.streamCreateError⟩
  else if enableCDS && !sendCDSOk then ⟨false, [], some EndReason.sendCDSError⟩
  else if !sendEDSOk then ⟨false, [], some EndReason.sendEDSError⟩
  else recvLoop enableCDS ⟨enableCDS, false, []⟩ events

/-- Environment input for one iteration of the `makeADSCall` loop: whether
`c.ctx` is already cancelled at the top-of-loop check, whether cancellation
arrives while waiting on the backoff timer, and the behaviour of the stream
during this iteration's `adsCallAttempt`. -/
structure IterInput where
  ctxDoneAtTop : Bool
  ctxDoneInBackoff : Bool
  streamOk : Bool
  sendCDSOk : Bool
  sendEDSOk : Bool
  events : List RecvEvent
deriving DecidableEq

/-- The loop-local state of `makeADSCall`: the `retryCount` counter and the
`doRetry` flag that decides whether the next iteration waits on the backoff
timer first. -/
structure SessionState where
  retryCount : Nat
  doRetry : Bool
deriving DecidableEq

/-- Observable steps of the `makeADSCall` loop: completing a backoff wait of
`c.backoff.Backoff(retryCount)`, exiting because cancellation arrived during
the wait, running one `adsCallAttempt` (recorded with the `retryCount` current
while it ran), and invoking `c.loseContact`. -/
inductive Action where
  | backoffWait : Nat → Action
  | backoffCanceled : Nat → Action
  | attemptRun : Nat → AttemptResult → Action
  | loseContact : Action
deriving DecidableEq

/-- The retry-state update after an attempt returns (source lines 183-188):
a received response resets `retryCount` to 0 and clears `doRetry`; otherwise
`retryCount` is kept and `doRetry` is set. -/
def nextSessionState (rc : Nat) (res : AttemptResult) : SessionState :=
  if res.firstRespReceived then ⟨0, false⟩ else ⟨rc, true⟩

/-- The `makeADSCall` loop (source lines 164-190) driven by a finite script of
per-iteration environment inputs, producing the trace of its observable
actions.  Each iteration: top-of-loop cancellation check; if `doRetry`, wait
on the backoff timer (exiting if cancelled during the wait) and then increment
`retryCount`; run `adsCallAttempt`; update the retry state; call
`c.loseContact`. -/
def makeADSCall (enableCDS : Bool) : SessionState → List IterInput → List Action
  | _, [] => []
  | s, i :: rest =>
    if i.ctxDoneAtTop then []
    else if s.doRetry then
      if i.ctxDoneInBackoff then [Action.backoffCanceled s.retryCount]
      else
        Action.backoffWait s.retryCount ::
        Action.attemptRun (s.retryCount + 1)
          (adsCallAttempt enableCDS i.streamOk i.sendCDSOk i.sendEDSOk i.events) ::
        Action.loseContact ::
        makeADSCall enableCDS
          (nextSessionState (s.retryCount + 1)
            (adsCallAttempt enableCDS i.streamOk i.sendCDSOk i.sendEDSOk i.events)) rest
    else
      Action.attemptRun s.retryCount
        (adsCallAttempt enableCDS i.streamOk i.sendCDSOk i.sendEDSOk i.events) ::
      Action.loseContact ::
      makeADSCall enableCDS
        (nextSessionState s.retryCount
          (adsCallAttempt enableCDS i.streamOk i.sendCDSOk i.sendEDSOk i.events)) rest

/-- `makeADSCall` enters its loop with `retryCount = 0` and no pending retry. -/
def initSessionState : SessionState := ⟨0, false⟩

/-- The action trace of one `makeADSCall` run from its initial state. -/
def sessionTrace (enableCDS : Bool) (inputs : List IterInput) : List Action :=
  makeADSCall enableCDS initSessionState inputs

/-- The attempts of a session trace, each as (retryCount while it ran,
whether it received at least one response), in order. -/
def attemptsOf (t : List Action) : List (Nat × Bool) :=
  t.filterMap fun a =>
    match a with
    | Action.attemptRun rc res => some (rc, res.firstRespReceived)
    | _ => none

/-- Relation between consecutive attempts of one session run: after an attempt
that received a response the next attempt runs with `retryCount = 0`; after an
attempt that received none the next attempt's `retryCount` is at least as
large. -/
def retryCountStep (p q : Nat × Bool) : Prop :=
  (p.2 = true → q.1 = 0) ∧ (p.2 = false → p.1 ≤ q.1)

/-- Atomic steps of the dial/close race on the shared channel field `c.cc`:
`cancelCtx` is `c.cancel()` in `close`; `closeCrit` is `close`'s mutex-guarded
section (close `c.cc` if non-nil); `dialCrit` is `dial`'s mutex-guarded
section (close the fresh channel if the context is done, otherwise store it in
`c.cc`).  The mutex makes each critical section one atomic step. -/
inductive CCAct where
  | cancelCtx
  | closeCrit
  | dialCrit
deriving DecidableEq

/-- Shared state of the dial/close race: whether `c.ctx` is cancelled, whether
`c.cc` holds the freshly dialed channel, and how many times that channel's
`Close` has been called. -/
structure CCState where
  canceled : Bool
  stored : Bool
  closeCount : Nat
deriving DecidableEq

/-- Effect of one atomic step of the dial/close race, following the source:
`close` cancels, then closes `c.cc` when set; `dial` closes the fresh channel
immediately when it observes cancellation, otherwise stores it. -/
def ccStep (s : CCState) : CCAct → CCState
  | CCAct.cancelCtx => ⟨true, s.stored, s.closeCount⟩
  | CCAct.closeCrit => if s.stored then ⟨s.canceled, s.stored, s.closeCount + 1⟩ else s
  | CCAct.dialCrit =>
    if s.canceled then ⟨s.canceled, s.stored, s.closeCount + 1⟩
    else ⟨s.canceled, true, s.closeCount⟩

/-- Run a schedule of atomic steps from the initial state (context live,
`c.cc` nil, fresh channel never closed). -/
def ccRun (sched : List CCAct) : CCState :=
  sched.foldl ccStep ⟨false, false, 0⟩

/-- All interleavings of two sequential tasks, each task's internal order
preserved. -/
def interleavings : List CCAct → List CCAct → List (List CCAct)
  | [], ys => [ys]
  | x :: xs, [] => [x :: xs]
  | x :: xs, y :: ys =>
    (interleavings xs (y :: ys)).map (fun l => x :: l) ++
    (interleavings (x :: xs) ys).map (fun l => y :: l)
termination_by a b => a.length + b.length

/-- Does this action run an attempt? -/
def isAttemptStep : Action → Bool
  | Action.attemptRun _ _ => true
  | _ => false

/-- Is this action a completed backoff wait? -/
def isBackoffStep : Action → Bool
  | Action.backoffWait _ => true
  | _ => false

/-- A per-iteration input that is never cancelled and whose attempt receives
one valid EDS response before the stream breaks. -/
def okIter : IterInput :=
  ⟨false, false, true, true, true, [RecvEvent.ok ⟨edsType, 1, some AdsMsg.clusterLoadAssignment, true⟩, RecvEvent.err]⟩

/-- A per-iteration input that is never cancelled and whose attempt fails to
create its stream, so no response is received. -/
def failIter : IterInput := ⟨false, false, false, true, true, []⟩

/-- A concrete EDS-typed response with an empty resource list. -/
def emptyEDSResponse : Response := ⟨edsType, 0, some AdsMsg.clusterLoadAssignment, true⟩

/-- A concrete well-formed EDS response accepted by the consumer. -/
def goodEDSResponse : Response := ⟨edsType, 1, some AdsMsg.clusterLoadAssignment, true⟩

/-- Once the receive loop's `firstRespReceived` flag is set it stays set for
the rest of the attempt. -/
theorem recvLoop_firstResp_true (e : Bool) (evs : List RecvEvent) :
    ∀ s : LoopState, s.firstRespReceived = true →
      (recvLoop e s evs).firstRespReceived = true := by
  induction evs with
  | nil => intro s hs; simpa [recvLoop] using hs
  | cons ev rest ih =>
    intro s hs
    cases ev with
    | err => simpa [recvLoop] using hs
    | ok resp =>
      simp only [recvLoop]
      repeat' split
      all_goals first
        | rfl
        | exact ih _ rfl

/-- The receive loop only appends to the list of dispatched messages. -/
theorem recvLoop_dispatched_append (e : Bool) (evs : List RecvEvent) :
    ∀ s : LoopState, ∃ l, (recvLoop e s evs).dispatched = s.dispatched ++ l := by
  induction evs with
  | nil => intro s; exact ⟨[], by simp [recvLoop]⟩
  | cons ev rest ih =>
    intro s
    cases ev with
    | err => exact ⟨[], by simp [recvLoop]⟩
    | ok resp =>
      simp only [recvLoop]
      repeat' split
      all_goals first
        | (refine ⟨[], ?_⟩; simp; done)
        | (exact ⟨_, rfl⟩)
        | (obtain ⟨l, hl⟩ := ih ⟨false, true, s.dispatched ++ [AdsMsg.cluster]⟩
           refine ⟨AdsMsg.cluster :: l, ?_⟩
           rw [hl]; simp)
        | (obtain ⟨l, hl⟩ :=
             ih ⟨s.expectCDS, true, s.dispatched ++ [AdsMsg.clusterLoadAssignment]⟩
           refine ⟨AdsMsg.clusterLoadAssignment :: l, ?_⟩
           rw [hl]; simp)
        | (obtain ⟨l, hl⟩ := ih ⟨s.expectCDS, true, s.dispatched ++ [AdsMsg.other]⟩
           refine ⟨AdsMsg.other :: l, ?_⟩
           rw [hl]; simp)

/-- Once the protocol phase accepts dependent resources it never reverts:
from a state with `expectCDS = false` the receive loop can never end with a
phase violation. -/
theorem recvLoop_no_phaseViolation (e : Bool) (evs : List RecvEvent) :
    ∀ s : LoopState, s.expectCDS = false →
      (recvLoop e s evs).ended ≠ some EndReason.phaseViolation := by
  induction evs with
  | nil => intro s hs; simp [recvLoop]
  | cons ev rest ih =>
    intro s hs
    cases ev with
    | err => simp [recvLoop]
    | ok resp =>
      simp only [recvLoop]
      repeat' split
      all_goals first
        | (simp; done)
        | (exact ih _ rfl)
        | (exact ih _ hs)
        | simp_all

/-- C1: with `primaryPhaseRequired = true` (`enableCDS`), a decoded
`ClusterLoadAssignment` arriving while the attempt's phase is still
awaiting-primary (`expectCDS = true`) is never dispatched to the consumer and
the attempt ends with a phase violation; and every such attempt starts its
receive loop in the awaiting-primary phase. -/
theorem claimC1 (resp : Response) (rest : List RecvEvent) (s : LoopState)
    (hphase : s.expectCDS = true) (hres : 1 ≤ resp.numResources)
    (hdec : resp.decode = some AdsMsg.clusterLoadAssignment) :
    recvLoop true s (RecvEvent.ok resp :: rest) =
      ⟨true, s.dispatched, some EndReason.phaseViolation⟩ ∧
    ∀ evs, adsCallAttempt true true true true evs = recvLoop true ⟨true, false, []⟩ evs := by
  constructor
  · have h1 : ¬ (resp.numResources < 1) := by omega
    simp [recvLoop, h1, hdec, hphase]
  · intro evs
    simp [adsCallAttempt]

/-- C1 witness: a concrete first-response `ClusterLoadAssignment` in a
primary-required attempt ends it with a phase violation and dispatches
nothing. -/
theorem claimC1_witness :
    recvLoop true ⟨true, false, []⟩ [RecvEvent.ok goodEDSResponse] =
      ⟨true, [], some EndReason.phaseViolation⟩ :=
  (claimC1 goodEDSResponse [] ⟨true, false, []⟩ rfl (by decide) rfl).1

/-- C2 counterexample: an attempt whose only received response is an
empty-resource fault still reports `firstRespReceived = true`, because the
flag is set right after `st.Recv()` succeeds and before any validation —
contradicting the claim that the flag is recorded only after a response is
validated, decoded and dispatched. -/
theorem claimC2_counterexample :
    (adsCallAttempt false true true true [RecvEvent.ok emptyEDSResponse]).firstRespReceived
        = true ∧
    (adsCallAttempt false true true true [RecvEvent.ok emptyEDSResponse]).dispatched = [] ∧
    (adsCallAttempt false true true true [RecvEvent.ok emptyEDSResponse]).ended =
      some EndReason.emptyResponse := by
  decide

/-- C2 amended: an attempt records `firstRespReceived` as soon as any
`st.Recv()` succeeds — before validation, decoding or dispatch — and reports
`false` exactly when no receive ever succeeded (stream-creation failure, a
send failure, or a receive error before any successful receive). -/
theorem claimC2_amended :
    (∀ (e : Bool) (s : LoopState) (resp : Response) (rest : List RecvEvent),
      (recvLoop e s (RecvEvent.ok resp :: rest)).firstRespReceived = true) ∧
    (∀ (e : Bool) (s : LoopState) (rest : List RecvEvent),
      (recvLoop e s (RecvEvent.err :: rest)).firstRespReceived = s.firstRespReceived) ∧
    (∀ (e : Bool) (events : List RecvEvent),
      (adsCallAttempt e false true true events).firstRespReceived = false) ∧
    (∀ events : List RecvEvent,
      (adsCallAttempt true true false true events).firstRespReceived = false) ∧
    (∀ (e c : Bool) (events : List RecvEvent),
      (adsCallAttempt e true c false events).firstRespReceived = false) := by
  refine ⟨?_, ?_, ?_, ?_, ?_⟩
  · intro e s resp rest
    simp only [recvLoop]
    repeat' split
    all_goals first
      | rfl
      | exact recvLoop_firstResp_true e rest _ rfl
  · intro e s rest
    rfl
  · intro e events
    simp [adsCallAttempt]
  · intro events
    simp [adsCallAttempt]
  · intro e c events
    cases e <;> cases c <;> simp [adsCallAttempt]

/-- C5: with `primaryPhaseRequired = false`, a dependent (EDS) response that
is the very first response of the attempt is decoded and dispatched to the
consumer with no error and no phase violation, and the attempt continues. -/
theorem claimC5 (resp : Response) (rest : List RecvEvent)
    (hurl : resp.typeUrl = edsType) (hres : 1 ≤ resp.numResources)
    (hdec : resp.decode = some AdsMsg.clusterLoadAssignment) (hok : resp.newADSOk = true) :
    adsCallAttempt false true true true (RecvEvent.ok resp :: rest) =
      recvLoop false ⟨false, true, [AdsMsg.clusterLoadAssignment]⟩ rest ∧
    (adsCallAttempt false true true true (RecvEvent.ok resp :: rest)).dispatched.head? =
      some AdsMsg.clusterLoadAssignment := by
  have h1 : ¬ (resp.numResources < 1) := by omega
  have h2 : (resp.typeUrl == cdsType) = false := by
    rw [hurl]; decide
  have hfirst : adsCallAttempt false true true true (RecvEvent.ok resp :: rest) =
      recvLoop false ⟨false, true, [AdsMsg.clusterLoadAssignment]⟩ rest := by
    simp [adsCallAttempt, recvLoop, h1, h2, hdec, hok]
  refine ⟨hfirst, ?_⟩
  obtain ⟨l, hl⟩ :=
    recvLoop_dispatched_append false rest ⟨false, true, [AdsMsg.clusterLoadAssignment]⟩
  rw [hfirst, hl]
  rfl

/-- C5 witness: a concrete dependent-only attempt dispatches its first EDS
response immediately. -/
theorem claimC5_witness :
    (adsCallAttempt false true true true [RecvEvent.ok goodEDSResponse]).dispatched.head? =
      some AdsMsg.clusterLoadAssignment :=
  (claimC5 goodEDSResponse [] rfl (by decide) rfl rfl).2

/-- C6: a response with an empty resource list ends the attempt with nothing
newly dispatched, and the session loop absorbs the fault: it invokes
`loseContact` and proceeds with the next iteration instead of raising. -/
theorem claimC6 (e : Bool) (s : LoopState) (resp : Response) (rest : List RecvEvent)
    (hres : resp.numResources = 0) :
    recvLoop e s (RecvEvent.ok resp :: rest) =
      ⟨true, s.dispatched, some EndReason.emptyResponse⟩ ∧
    (∀ (st : SessionState) (inp : IterInput) (rest' : List IterInput),
      st.doRetry = false → inp.ctxDoneAtTop = false → inp.streamOk = true →
      inp.sendCDSOk = true → inp.sendEDSOk = true → inp.events = [RecvEvent.ok resp] →
      makeADSCall e st (inp :: rest') =
        Action.attemptRun st.retryCount ⟨true, [], some EndReason.emptyResponse⟩ ::
        Action.loseContact :: makeADSCall e ⟨0, false⟩ rest') := by
  have h1 : resp.numResources < 1 := by omega
  constructor
  · simp [recvLoop, h1]
  · intro st inp rest' hdr htop hstream hcds heds hev
    simp [makeADSCall, htop, hdr, hstream, hcds, heds, hev, adsCallAttempt, recvLoop, h1,
      nextSessionState]

/-- C6 witness: the concrete empty-resource response ends a concrete attempt
with nothing dispatched. -/
theorem claimC6_witness :
    recvLoop false ⟨false, false, []⟩ [RecvEvent.ok emptyEDSResponse] =
      ⟨true, [], some EndReason.emptyResponse⟩ :=
  (claimC6 false ⟨false, false, []⟩ emptyEDSResponse [] rfl).1

/-- C8: with `primaryPhaseRequired = true`, if the CDS send succeeds but the
EDS send fails, the attempt ends at once — independent of any receive events —
and reports that no response was received. -/
theorem claimC8 (events : List RecvEvent) :
    adsCallAttempt true true true false events =
      ⟨false, [], some EndReason.sendEDSError⟩ := by
  simp [adsCallAttempt]

/-- C9: in every interleaving of `close()` (cancel, then its critical section)
with `dial`'s critical section, the freshly dialed channel ends up closed
exactly once: never leaked open, never double-closed. -/
theorem claimC9 (sched : List CCAct)
    (h : sched ∈ interleavings [CCAct.cancelCtx, CCAct.closeCrit] [CCAct.dialCrit]) :
    (ccRun sched).closeCount = 1 := by
  simp [interleavings] at h
  rcases h with h | h | h <;> subst h <;> rfl

/-- C9 witness: the schedule where cancellation lands between the dial's
store and close's critical section closes the channel exactly once. -/
theorem claimC9_witness :
    (ccRun [CCAct.dialCrit, CCAct.cancelCtx, CCAct.closeCrit]).closeCount = 1 :=
  claimC9 [CCAct.dialCrit, CCAct.cancelCtx, CCAct.closeCrit]
    (by simp [interleavings])

/-- C10: the phase flag `expectCDS` is monotone within an attempt: decoding a
primary (`Cluster`) resource clears it for the rest of the attempt regardless
of its prior value; from any state with `expectCDS = false` the attempt can
never end with a phase violation (so every later dependent resource passes the
phase check); and with `primaryPhaseRequired = false` the attempt starts with
`expectCDS = false`. -/
theorem claimC10 :
    (∀ (s : LoopState) (resp : Response) (rest : List RecvEvent),
      1 ≤ resp.numResources → resp.decode = some AdsMsg.cluster → resp.newADSOk = true →
      recvLoop true s (RecvEvent.ok resp :: rest) =
        recvLoop true ⟨false, true, s.dispatched ++ [AdsMsg.cluster]⟩ rest) ∧
    (∀ (e : Bool) (s : LoopState) (evs : List RecvEvent), s.expectCDS = false →
      (recvLoop e s evs).ended ≠ some EndReason.phaseViolation) ∧
    (∀ evs : List RecvEvent,
      adsCallAttempt false true true true evs = recvLoop false ⟨false, false, []⟩ evs) := by
  refine ⟨?_, ?_, ?_⟩
  · intro s resp rest hres hdec hok
    have h1 : ¬ (resp.numResources < 1) := by omega
    simp [recvLoop, h1, hdec, hok]
  · intro e s evs hs
    exact recvLoop_no_phaseViolation e evs s hs
  · intro evs
    simp [adsCallAttempt]

/-- When an attempt received a response the session loop resets its retry
state. -/
theorem nextSessionState_of_received (rc : Nat) (res : AttemptResult)
    (h : res.firstRespReceived = true) : nextSessionState rc res = ⟨0, false⟩ := by
  simp [nextSessionState, h]

/-- When an attempt received no response the session loop keeps the count and
schedules a backoff. -/
theorem nextSessionState_of_missed (rc : Nat) (res : AttemptResult)
    (h : res.firstRespReceived = false) : nextSessionState rc res = ⟨rc, true⟩ := by
  simp [nextSessionState, h]

/-- Shape of the first action of a `makeADSCall` trace: nothing (immediate
exit), a backoff step carrying the current `retryCount` when a retry is
pending, or an attempt at the current `retryCount` otherwise.  In particular a
trace never starts with `loseContact`. -/
theorem makeADSCall_head (e : Bool) (s : SessionState) (inputs : List IterInput) :
    (makeADSCall e s inputs).get? 0 = none ∨
    (s.doRetry = true ∧
      ((makeADSCall e s inputs).get? 0 = some (Action.backoffWait s.retryCount) ∨
       (makeADSCall e s inputs).get? 0 = some (Action.backoffCanceled s.retryCount))) ∨
    (s.doRetry = false ∧
      ∃ res, (makeADSCall e s inputs).get? 0 = some (Action.attemptRun s.retryCount res)) := by
  cases inputs with
  | nil => left; rfl
  | cons i rest =>
    cases htop : i.ctxDoneAtTop with
    | true => left; simp [makeADSCall, htop]
    | false =>
      cases hdr : s.doRetry with
      | true =>
        cases hctx : i.ctxDoneInBackoff with
        | true =>
          right; left
          exact ⟨rfl, Or.inr (by simp [makeADSCall, htop, hdr, hctx])⟩
        | false =>
          right; left
          exact ⟨rfl, Or.inl (by simp [makeADSCall, htop, hdr, hctx])⟩
      | false =>
        right; right
        refine ⟨rfl, ⟨adsCallAttempt e i.streamOk i.sendCDSOk i.sendEDSOk i.events, ?_⟩⟩
        simp [makeADSCall, htop, hdr]

/-- The first recorded attempt of a `makeADSCall` trace runs at the state's
`retryCount`, incremented by one exactly when a backoff was pending. -/
theorem attemptsOf_head (e : Bool) (inputs : List IterInput) (s : SessionState)
    (p : Nat × Bool) (hp : (attemptsOf (makeADSCall e s inputs)).head? = some p) :
    (s.doRetry = false → p.1 = s.retryCount) ∧
    (s.doRetry = true → p.1 = s.retryCount + 1) := by
  cases inputs with
  | nil => simp [makeADSCall, attemptsOf] at hp
  | cons i rest =>
    cases htop : i.ctxDoneAtTop with
    | true => simp [makeADSCall, htop, attemptsOf] at hp
    | false =>
      cases hdr : s.doRetry with
      | true =>
        cases hctx : i.ctxDoneInBackoff with
        | true => simp [makeADSCall, htop, hdr, hctx, attemptsOf] at hp
        | false =>
          have hstep : makeADSCall e s (i :: rest) =
              Action.backoffWait s.retryCount ::
              Action.attemptRun (s.retryCount + 1)
                (adsCallAttempt e i.streamOk i.sendCDSOk i.sendEDSOk i.events) ::
              Action.loseContact ::
              makeADSCall e
                (nextSessionState (s.retryCount + 1)
                  (adsCallAttempt e i.streamOk i.sendCDSOk i.sendEDSOk i.events)) rest := by
            simp [makeADSCall, htop, hdr, hctx]
          rw [hstep] at hp
          simp [attemptsOf] at hp
          constructor
          · intro h; simp at h
          · intro _; subst hp; rfl
      | false =>
        have hstep : makeADSCall e s (i :: rest) =
            Action.attemptRun s.retryCount
              (adsCallAttempt e i.streamOk i.sendCDSOk i.sendEDSOk i.events) ::
            Action.loseContact ::
            makeADSCall e
              (nextSessionState s.retryCount
                (adsCallAttempt e i.streamOk i.sendCDSOk i.sendEDSOk i.events)) rest := by
          simp [makeADSCall, htop, hdr]
        rw [hstep] at hp
        simp [attemptsOf] at hp
        constructor
        · intro _; subst hp; rfl
        · intro h; simp at h

/-- From any session state, the attempts of a `makeADSCall` trace satisfy the
retry-count step relation between every pair of consecutive attempts. -/
theorem makeADSCall_chain (e : Bool) (inputs : List IterInput) :
    ∀ s : SessionState, List.Chain' retryCountStep (attemptsOf (makeADSCall e s inputs)) := by
  induction inputs with
  | nil => intro s; simp [makeADSCall, attemptsOf]
  | cons i rest ih =>
    intro s
    cases htop : i.ctxDoneAtTop with
    | true => simp [makeADSCall, htop, attemptsOf]
    | false =>
      cases hdr : s.doRetry with
      | true =>
        cases hctx : i.ctxDoneInBackoff with
        | true => simp [makeADSCall, htop, hdr, hctx, attemptsOf]
        | false =>
          have hstep : makeADSCall e s (i :: rest) =
              Action.backoffWait s.retryCount ::
              Action.attemptRun (s.retryCount + 1)
                (adsCallAttempt e i.streamOk i.sendCDSOk i.sendEDSOk i.events) ::
              Action.loseContact ::
              makeADSCall e
                (nextSessionState (s.retryCount + 1)
                  (adsCallAttempt e i.streamOk i.sendCDSOk i.sendEDSOk i.events)) rest := by
            simp [makeADSCall, htop, hdr, hctx]
          rw [hstep]
          simp only [attemptsOf, List.filterMap_cons]
          refine List.chain'_cons'.mpr ⟨?_, ih _⟩
          intro q hq
          rw [Option.mem_def] at hq
          cases hfr : (adsCallAttempt e i.streamOk i.sendCDSOk i.sendEDSOk i.events).firstRespReceived with
          | true =>
            rw [nextSessionState_of_received _ _ hfr] at hq
            have h0 := (attemptsOf_head e rest ⟨0, false⟩ q hq).1 rfl
            constructor
            · intro _; simpa using h0
            · intro hcon; simp at hcon
          | false =>
            rw [nextSessionState_of_missed _ _ hfr] at hq
            have h1 := (attemptsOf_head e rest ⟨s.retryCount + 1, true⟩ q hq).2 rfl
            constructor
            · intro hcon; simp at hcon
            · intro _
              have h2 : q.1 = s.retryCount + 1 + 1 := by simpa using h1
              simp
              omega
      | false =>
        have hstep : makeADSCall e s (i :: rest) =
            Action.attemptRun s.retryCount
              (adsCallAttempt e i.streamOk i.sendCDSOk i.sendEDSOk i.events) ::
            Action.loseContact ::
            makeADSCall e
              (nextSessionState s.retryCount
                (adsCallAttempt e i.streamOk i.sendCDSOk i.sendEDSOk i.events)) rest := by
          simp [makeADSCall, htop, hdr]
        rw [hstep]
        simp only [attemptsOf, List.filterMap_cons]
        refine List.chain'_cons'.mpr ⟨?_, ih _⟩
        intro q hq
        rw [Option.mem_def] at hq
        cases hfr : (adsCallAttempt e i.streamOk i.sendCDSOk i.sendEDSOk i.events).firstRespReceived with
        | true =>
          rw [nextSessionState_of_received _ _ hfr] at hq
          have h0 := (attemptsOf_head e rest ⟨0, false⟩ q hq).1 rfl
          constructor
          · intro _; simpa using h0
          · intro hcon; simp at hcon
        | false =>
          rw [nextSessionState_of_missed _ _ hfr] at hq
          have h1 := (attemptsOf_head e rest ⟨s.retryCount, true⟩ q hq).2 rfl
          constructor
          · intro hcon; simp at hcon
          · intro _
            have h2 : q.1 = s.retryCount + 1 := by simpa using h1
            simp
            omega

/-- A `makeADSCall` trace never starts with `loseContact`. -/
theorem makeADSCall_head_ne_loseContact (e : Bool) (s : SessionState)
    (inputs : List IterInput) :
    (makeADSCall e s inputs).get? 0 ≠ some Action.loseContact := by
  intro hcon
  rcases makeADSCall_head e s inputs with h | ⟨_, h | h⟩ | ⟨_, res, h⟩ <;>
    rw [h] at hcon <;> simp at hcon

/-- In any `makeADSCall` trace, an action is `loseContact` exactly when the
previous action ran an attempt. -/
theorem makeADSCall_loseContact_iff (e : Bool) (inputs : List IterInput) :
    ∀ (s : SessionState) (n : Nat),
      (makeADSCall e s inputs).get? (n + 1) = some Action.loseContact ↔
        ∃ rc res, (makeADSCall e s inputs).get? n = some (Action.attemptRun rc res) := by
  induction inputs with
  | nil =>
    intro s n
    simp [makeADSCall]
  | cons i rest ih =>
    intro s n
    cases htop : i.ctxDoneAtTop with
    | true => simp [makeADSCall, htop]
    | false =>
      cases hdr : s.doRetry with
      | true =>
        cases hctx : i.ctxDoneInBackoff with
        | true =>
          have hstep : makeADSCall e s (i :: rest) =
              [Action.backoffCanceled s.retryCount] := by
            simp [makeADSCall, htop, hdr, hctx]
          rw [hstep]
          cases n with
          | zero => simp
          | succ m => simp
        | false =>
          have hstep : makeADSCall e s (i :: rest) =
              Action.backoffWait s.retryCount ::
              Action.attemptRun (s.retryCount + 1)
                (adsCallAttempt e i.streamOk i.sendCDSOk i.sendEDSOk i.events) ::
              Action.loseContact ::
              makeADSCall e
                (nextSessionState (s.retryCount + 1)
                  (adsCallAttempt e i.streamOk i.sendCDSOk i.sendEDSOk i.events)) rest := by
            simp [makeADSCall, htop, hdr, hctx]
          rw [hstep]
          cases n with
          | zero => simp
          | succ m =>
            cases m with
            | zero => simp
            | succ k =>
              cases k with
              | zero =>
                have hA := makeADSCall_head_ne_loseContact e
                  (nextSessionState (s.retryCount + 1)
                    (adsCallAttempt e i.streamOk i.sendCDSOk i.sendEDSOk i.events)) rest
                constructor
                · intro h; exact absurd h hA
                · rintro ⟨rc, res, hcon⟩; simp at hcon
              | succ j =>
                exact ih (nextSessionState (s.retryCount + 1)
                  (adsCallAttempt e i.streamOk i.sendCDSOk i.sendEDSOk i.events)) j
      | false =>
        have hstep : makeADSCall e s (i :: rest) =
            Action.attemptRun s.retryCount
              (adsCallAttempt e i.streamOk i.sendCDSOk i.sendEDSOk i.events) ::
            Action.loseContact ::
            makeADSCall e
              (nextSessionState s.retryCount
                (adsCallAttempt e i.streamOk i.sendCDSOk i.sendEDSOk i.events)) rest := by
          simp [makeADSCall, htop, hdr]
        rw [hstep]
        cases n with
        | zero => simp
        | succ m =>
          cases m with
          | zero =>
            have hA := makeADSCall_head_ne_loseContact e
              (nextSessionState s.retryCount
                (adsCallAttempt e i.streamOk i.sendCDSOk i.sendEDSOk i.events)) rest
            constructor
            · intro h; exact absurd h hA
            · rintro ⟨rc, res, hcon⟩; simp at hcon
          | succ k =>
            exact ih (nextSessionState s.retryCount
              (adsCallAttempt e i.streamOk i.sendCDSOk i.sendEDSOk i.events)) k

/-- C7: in every session run, `loseContact` is invoked exactly once right
after each attempt ends — an action is `loseContact` precisely when the
preceding action ran an attempt — and never anywhere else (in particular never
before the first attempt). -/
theorem claimC7 (e : Bool) (inputs : List IterInput) (n : Nat) :
    ((sessionTrace e inputs).get? (n + 1) = some Action.loseContact ↔
      ∃ rc res, (sessionTrace e inputs).get? n = some (Action.attemptRun rc res)) ∧
    (sessionTrace e inputs).get? 0 ≠ some Action.loseContact :=
  ⟨makeADSCall_loseContact_iff e inputs initSessionState n,
   makeADSCall_head_ne_loseContact e initSessionState inputs⟩

/-- C7 witness: in a concrete two-attempt run, the action after the first
attempt is `loseContact` and the trace does not begin with `loseContact`. -/
theorem claimC7_witness :
    ((sessionTrace false [okIter, failIter]).get? 1 = some Action.loseContact ↔
      ∃ rc res,
        (sessionTrace false [okIter, failIter]).get? 0 = some (Action.attemptRun rc res)) ∧
    (sessionTrace false [okIter, failIter]).get? 0 ≠ some Action.loseContact :=
  claimC7 false [okIter, failIter] 0

/-- C4: over any session run, the `retryCount` recorded with consecutive
attempts is non-decreasing across an attempt that received no response and is
exactly 0 at the attempt following one that received a response. -/
theorem claimC4 (e : Bool) (inputs : List IterInput) :
    List.Chain' retryCountStep (attemptsOf (sessionTrace e inputs)) :=
  makeADSCall_chain e inputs initSessionState

/-- C3 counterexample: a run with two attempts that both receive a response
contains two attempt actions and no backoff wait at all, so the loop does not
wait before every attempt after the first — after a successful attempt the
next attempt starts immediately. -/
theorem claimC3_counterexample :
    (sessionTrace false [okIter, okIter]).countP isAttemptStep = 2 ∧
    (sessionTrace false [okIter, okIter]).countP isBackoffStep = 0 := by
  decide

/-- Shape of the session loop around backoff, from any state: after an attempt
that received no response the action two steps later (past `loseContact`) is —
unless the run ends — a backoff step carrying that attempt's `retryCount`;
after an attempt that received a response the next attempt (if any) follows
two steps later with `retryCount = 0` and no wait between; a completed backoff
wait at `rc` is immediately followed by an attempt at `rc + 1`; a cancelled
backoff wait ends the trace at once. -/
theorem makeADSCall_backoff_shape (e : Bool) (inputs : List IterInput) :
    ∀ (s : SessionState) (n rc : Nat) (res : AttemptResult),
      ((makeADSCall e s inputs).get? n = some (Action.attemptRun rc res) →
        res.firstRespReceived = false →
        (makeADSCall e s inputs).get? (n + 2) = none ∨
        (makeADSCall e s inputs).get? (n + 2) = some (Action.backoffWait rc) ∨
        (makeADSCall e s inputs).get? (n + 2) = some (Action.backoffCanceled rc)) ∧
      ((makeADSCall e s inputs).get? n = some (Action.attemptRun rc res) →
        res.firstRespReceived = true →
        (makeADSCall e s inputs).get? (n + 2) = none ∨
        ∃ res2, (makeADSCall e s inputs).get? (n + 2) = some (Action.attemptRun 0 res2)) ∧
      ((makeADSCall e s inputs).get? n = some (Action.backoffWait rc) →
        ∃ res2, (makeADSCall e s inputs).get? (n + 1) =
          some (Action.attemptRun (rc + 1) res2)) ∧
      ((makeADSCall e s inputs).get? n = some (Action.backoffCanceled rc) →
        (makeADSCall e s inputs).get? (n + 1) = none) := by
  induction inputs with
  | nil =>
    intro s n rc res
    refine ⟨?_, ?_, ?_, ?_⟩ <;> intro h <;> simp [makeADSCall] at h
  | cons i rest ih =>
    intro s n rc res
    cases htop : i.ctxDoneAtTop with
    | true =>
      refine ⟨?_, ?_, ?_, ?_⟩ <;> intro h <;> simp [makeADSCall, htop] at h
    | false =>
      cases hdr : s.doRetry with
      | true =>
        cases hctx : i.ctxDoneInBackoff with
        | true =>
          have hstep : makeADSCall e s (i :: rest) =
              [Action.backoffCanceled s.retryCount] := by
            simp [makeADSCall, htop, hdr, hctx]
          rw [hstep]
          cases n with
          | zero =>
            refine ⟨?_, ?_, ?_, ?_⟩ <;> intro h
            · simp at h
            · simp at h
            · simp at h
            · rfl
          | succ m =>
            refine ⟨?_, ?_, ?_, ?_⟩ <;> intro h <;> simp at h
        | false =>
          have hstep : makeADSCall e s (i :: rest) =
              Action.backoffWait s.retryCount ::
              Action.attemptRun (s.retryCount + 1)
                (adsCallAttempt e i.streamOk i.sendCDSOk i.sendEDSOk i.events) ::
              Action.loseContact ::
              makeADSCall e
                (nextSessionState (s.retryCount + 1)
                  (adsCallAttempt e i.streamOk i.sendCDSOk i.sendEDSOk i.events)) rest := by
            simp [makeADSCall, htop, hdr, hctx]
          rw [hstep]
          cases n with
          | zero =>
            refine ⟨?_, ?_, ?_, ?_⟩ <;> intro h
            · simp at h
            · simp at h
            · simp only [List.get?_cons_zero, Option.some.injEq,
                Action.backoffWait.injEq] at h
              subst h
              exact ⟨adsCallAttempt e i.streamOk i.sendCDSOk i.sendEDSOk i.events, rfl⟩
            · simp at h
          | succ m =>
            cases m with
            | zero =>
              refine ⟨?_, ?_, ?_, ?_⟩ <;> intro h
              · intro hfr
                simp only [List.get?_cons_succ, List.get?_cons_zero, Option.some.injEq,
                  Action.attemptRun.injEq] at h
                obtain ⟨rfl, rfl⟩ := h
                rw [nextSessionState_of_missed _ _ hfr]
                rcases makeADSCall_head e ⟨s.retryCount + 1, true⟩ rest with
                  h0 | ⟨_, h0 | h0⟩ | ⟨hdf, _⟩
                · exact Or.inl h0
                · exact Or.inr (Or.inl h0)
                · exact Or.inr (Or.inr h0)
                · simp at hdf
              · intro hfr
                simp only [List.get?_cons_succ, List.get?_cons_zero, Option.some.injEq,
                  Action.attemptRun.injEq] at h
                obtain ⟨rfl, rfl⟩ := h
                rw [nextSessionState_of_received _ _ hfr]
                rcases makeADSCall_head e ⟨0, false⟩ rest with
                  h0 | ⟨hdt, _⟩ | ⟨_, res2, h0⟩
                · exact Or.inl h0
                · simp at hdt
                · exact Or.inr ⟨res2, h0⟩
              · simp at h
              · simp at h
            | succ k =>
              cases k with
              | zero =>
                refine ⟨?_, ?_, ?_, ?_⟩ <;> intro h <;> simp at h
              | succ j =>
                exact ih (nextSessionState (s.retryCount + 1)
                  (adsCallAttempt e i.streamOk i.sendCDSOk i.sendEDSOk i.events)) j rc res
      | false =>
        have hstep : makeADSCall e s (i :: rest) =
            Action.attemptRun s.retryCount
              (adsCallAttempt e i.streamOk i.sendCDSOk i.sendEDSOk i.events) ::
            Action.loseContact ::
            makeADSCall e
              (nextSessionState s.retryCount
                (adsCallAttempt e i.streamOk i.sendCDSOk i.sendEDSOk i.events)) rest := by
          simp [makeADSCall, htop, hdr]
        rw [hstep]
        cases n with
        | zero =>
          refine ⟨?_, ?_, ?_, ?_⟩ <;> intro h
          · intro hfr
            simp only [List.get?_cons_zero, Option.some.injEq,
              Action.attemptRun.injEq] at h
            obtain ⟨rfl, rfl⟩ := h
            rw [nextSessionState_of_missed _ _ hfr]
            rcases makeADSCall_head e ⟨s.retryCount, true⟩ rest with
              h0 | ⟨_, h0 | h0⟩ | ⟨hdf, _⟩
            · exact Or.inl h0
            · exact Or.inr (Or.inl h0)
            · exact Or.inr (Or.inr h0)
            · simp at hdf
          · intro hfr
            simp only [List.get?_cons_zero, Option.some.injEq,
              Action.attemptRun.injEq] at h
            obtain ⟨rfl, rfl⟩ := h
            rw [nextSessionState_of_received _ _ hfr]
            rcases makeADSCall_head e ⟨0, false⟩ rest with
              h0 | ⟨hdt, _⟩ | ⟨_, res2, h0⟩
            · exact Or.inl h0
            · simp at hdt
            · exact Or.inr ⟨res2, h0⟩
          · simp at h
          · simp at h
        | succ m =>
          cases m with
          | zero =>
            refine ⟨?_, ?_, ?_, ?_⟩ <;> intro h <;> simp at h
          | succ k =>
            exact ih (nextSessionState s.retryCount
              (adsCallAttempt e i.streamOk i.sendCDSOk i.sendEDSOk i.events)) k rc res

/-- C3 (amended): in every session run, a backoff wait of
`Backoff.delay(retryCount)` precedes exactly those attempts that follow an
attempt which received no response (the wait carries that attempt's
`retryCount` and the following attempt runs at `retryCount + 1`); after an
attempt that received a response the next attempt, if any, begins immediately
(at `retryCount = 0`) with no wait; and cancellation during a backoff wait
ends the run immediately. -/
theorem claimC3_amended (e : Bool) (inputs : List IterInput) (n rc : Nat)
    (res : AttemptResult) :
    ((sessionTrace e inputs).get? n = some (Action.attemptRun rc res) →
      res.firstRespReceived = false →
      (sessionTrace e inputs).get? (n + 2) = none ∨
      (sessionTrace e inputs).get? (n + 2) = some (Action.backoffWait rc) ∨
      (sessionTrace e inputs).get? (n + 2) = some (Action.backoffCanceled rc)) ∧
    ((sessionTrace e inputs).get? n = some (Action.attemptRun rc res) →
      res.firstRespReceived = true →
      (sessionTrace e inputs).get? (n + 2) = none ∨
      ∃ res2, (sessionTrace e inputs).get? (n + 2) = some (Action.attemptRun 0 res2)) ∧
    ((sessionTrace e inputs).get? n = some (Action.backoffWait rc) →
      ∃ res2, (sessionTrace e inputs).get? (n + 1) =
        some (Action.attemptRun (rc + 1) res2)) ∧
    ((sessionTrace e inputs).get? n = some (Action.backoffCanceled rc) →
      (sessionTrace e inputs).get? (n + 1) = none) :=
  makeADSCall_backoff_shape e inputs initSessionState n rc res

/-- C3 witness: in a concrete run whose first attempt receives nothing, the
action two steps after that attempt is the backoff wait at `retryCount = 0`. -/
theorem claimC3_amended_witness :
    (sessionTrace false [failIter, failIter]).get? 2 = none ∨
    (sessionTrace false [failIter, failIter]).get? 2 = some (Action.backoffWait 0) ∨
    (sessionTrace false [failIter, failIter]).get? 2 = some (Action.backoffCanceled 0) :=
  (claimC3_amended false [failIter, failIter] 0 0
      ⟨false, [], some EndReason.streamCreateError⟩).1 (by decide) rfl

/-- C4 witness: the retry-count chain holds on a concrete two-attempt run. -/
theorem claimC4_witness :
    List.Chain' retryCountStep (attemptsOf (sessionTrace false [okIter, failIter])) :=
  claimC4 false [okIter, failIter]

/-- C2 amended witness: the flag is set on a concrete response that fails
validation. -/
theorem claimC2_amended_witness :
    (recvLoop false ⟨false, false, []⟩
        (RecvEvent.ok emptyEDSResponse :: [])).firstRespReceived = true :=
  claimC2_amended.1 false ⟨false, false, []⟩ emptyEDSResponse []

/-- C8 witness: the send-failure attempt result at a concrete event list. -/
theorem claimC8_witness :
    adsCallAttempt true true true false [] = ⟨false, [], some EndReason.sendEDSError⟩ :=
  claimC8 []

/-- C10 witness: decoding a concrete `Cluster` response clears the phase flag
even from the awaiting-primary state. -/
theorem claimC10_witness :
    recvLoop true ⟨true, false, []⟩
        [RecvEvent.ok ⟨cdsType, 1, some AdsMsg.cluster, true⟩] =
      recvLoop true ⟨false, true, [AdsMsg.cluster]⟩ [] := by
  have h := claimC10.1 ⟨true, false, []⟩ ⟨cdsType, 1, some AdsMsg.cluster, true⟩ []
    (by decide) rfl rfl
  simpa using h

end Xds
